import Mathlib

/-!
Shallow embedding of `explainer.py`: a script that extracts per-slide text
from a slide deck, asks a remote chat-completion API for an explanation of
each slide with a retry/backoff/pacing policy, and writes the explanations
to a JSON file.  Python strings are modelled as lists of characters,
`asyncio.sleep` calls and API requests as an explicit event trace, the remote
collaborator as a function from the call index to an outcome, and the
filesystem as a map from paths to file contents.
-/

/-- Python strings, modelled as lists of characters. -/
abbrev PyStr := List Char

/-- Coerce a Lean string literal to the Python-string model. -/
def pys (s : String) : PyStr := s.data

/-- ASCII whitespace, the characters removed by Python `str.strip()`
(the Unicode whitespace code points beyond ASCII are not modelled). -/
def isPySpace (c : Char) : Bool :=
  c == ' ' || c == '\t' || c == '\n' || c == '\x0d' || c == '\x0b' || c == '\x0c'

/-- Python `str.strip()`: remove leading and trailing whitespace. -/
def pyStrip (s : PyStr) : PyStr :=
  ((s.dropWhile isPySpace).reverse.dropWhile isPySpace).reverse

/-- Outcome of one call to the remote chat-completion API, covering the
exception classes distinguished by `get_explanation`: success, `RateLimitError`,
`APIConnectionError`, `APIError`, and any other exception. -/
inductive ApiOutcome where
  | success (content : PyStr)
  | rateLimitError
  | apiConnectionError (msg : PyStr)
  | apiError (msg : PyStr)
  | otherError (msg : PyStr)
deriving DecidableEq, Repr

/-- Observable events of a run: an API request carrying the slide text,
an `asyncio.sleep` of the given number of seconds, and the parsing of the
input document by `Presentation(file_path)`. -/
inductive Event where
  | request (text : PyStr)
  | sleep (secs : Nat)
  | parse (path : PyStr)
deriving DecidableEq, Repr

/-- The sleep durations occurring in a trace, in order. -/
def sleepsOf (evs : List Event) : List Nat :=
  evs.filterMap fun e =>
    match e with
    | Event.sleep n => some n
    | _ => none

/-- The API requests occurring in a trace, in order. -/
def requestsOf (evs : List Event) : List PyStr :=
  evs.filterMap fun e =>
    match e with
    | Event.request t => some t
    | _ => none

/-- What a call to `get_explanation` produces: its event trace, the returned
string, and the value of the local `delay` variable at the moment of return. -/
structure ExplainResult where
  events : List Event
  result : PyStr
  finalDelay : Nat
deriving DecidableEq, Repr

/-- The fallback string returned when the retry budget is exhausted. -/
def failedRetriesMsg : PyStr :=
  pys "Failed to get explanation after several retries due to rate limits."

/-- The prefix of the fallback string for an unrecognized exception
(`f"Error processing slide: {str(e)}"`). -/
def errorSlideMsg : PyStr := pys "Error processing slide: "

/-- The loop body of `get_explanation`: `for attempt in range(retries)` with
the mutable `delay` made explicit.  `api` gives the collaborator's outcome for
each call (indexed from 0), `call` is the index of the next call, `fuel` the
number of attempts remaining.  On success the trimmed response content is
returned; on `RateLimitError` the code sleeps 60 s and retries with `delay`
unchanged; on `APIConnectionError` and `APIError` it sleeps `delay` seconds and
doubles `delay` capped at 60; on any other exception it returns at once with a
fallback string embedding the message; when the budget runs out it returns the
fixed rate-limit fallback string. -/
def getExplanationLoop (api : Nat → ApiOutcome) (text : PyStr)
    (call delay : Nat) : Nat → ExplainResult
  | 0 => ⟨[], failedRetriesMsg, delay⟩
  | fuel + 1 =>
    match api call with
    | ApiOutcome.success content => ⟨[Event.request text], pyStrip content, delay⟩
    | ApiOutcome.rateLimitError =>
        let r := getExplanationLoop api text (call + 1) delay fuel
        ⟨Event.request text :: Event.sleep 60 :: r.events, r.result, r.finalDelay⟩
    | ApiOutcome.apiConnectionError _ =>
        let r := getExplanationLoop api text (call + 1) (min (delay * 2) 60) fuel
        ⟨Event.request text :: Event.sleep delay :: r.events, r.result, r.finalDelay⟩
    | ApiOutcome.apiError _ =>
        let r := getExplanationLoop api text (call + 1) (min (delay * 2) 60) fuel
        ⟨Event.request text :: Event.sleep delay :: r.events, r.result, r.finalDelay⟩
    | ApiOutcome.otherError m => ⟨[Event.request text], errorSlideMsg ++ m, delay⟩

/-- `get_explanation(client, text, retries=5)`: the initial delay is 1 second
and the default retry budget of 5 attempts is never overridden by callers. -/
def get_explanation (api : Nat → ApiOutcome) (text : PyStr) : ExplainResult :=
  getExplanationLoop api text 0 1 5

theorem getExplanationLoop_success (api : Nat → ApiOutcome) (text : PyStr)
    (call delay fuel : Nat) (c : PyStr) (h : api call = ApiOutcome.success c) :
    getExplanationLoop api text call delay (fuel + 1) =
      ⟨[Event.request text], pyStrip c, delay⟩ := by
  simp [getExplanationLoop, h]

theorem getExplanationLoop_rateLimit (api : Nat → ApiOutcome) (text : PyStr)
    (call delay fuel : Nat) (h : api call = ApiOutcome.rateLimitError) :
    getExplanationLoop api text call delay (fuel + 1) =
      ⟨Event.request text :: Event.sleep 60 ::
          (getExplanationLoop api text (call + 1) delay fuel).events,
        (getExplanationLoop api text (call + 1) delay fuel).result,
        (getExplanationLoop api text (call + 1) delay fuel).finalDelay⟩ := by
  simp [getExplanationLoop, h]

theorem getExplanationLoop_connError (api : Nat → ApiOutcome) (text : PyStr)
    (call delay fuel : Nat) (m : PyStr)
    (h : api call = ApiOutcome.apiConnectionError m) :
    getExplanationLoop api text call delay (fuel + 1) =
      ⟨Event.request text :: Event.sleep delay ::
          (getExplanationLoop api text (call + 1) (min (delay * 2) 60) fuel).events,
        (getExplanationLoop api text (call + 1) (min (delay * 2) 60) fuel).result,
        (getExplanationLoop api text (call + 1) (min (delay * 2) 60) fuel).finalDelay⟩ := by
  simp [getExplanationLoop, h]

theorem getExplanationLoop_otherError (api : Nat → ApiOutcome) (text : PyStr)
    (call delay fuel : Nat) (m : PyStr) (h : api call = ApiOutcome.otherError m) :
    getExplanationLoop api text call delay (fuel + 1) =
      ⟨[Event.request text], errorSlideMsg ++ m, delay⟩ := by
  simp [getExplanationLoop, h]

example :
    get_explanation (fun _ => ApiOutcome.apiConnectionError (pys "x")) (pys "t") =
      ⟨[Event.request (pys "t"), Event.sleep 1, Event.request (pys "t"),
        Event.sleep 2, Event.request (pys "t"), Event.sleep 4,
        Event.request (pys "t"), Event.sleep 8, Event.request (pys "t"),
        Event.sleep 16], failedRetriesMsg, 32⟩ := by
  rfl

/-- A shape on a slide: `hasText` models `hasattr(shape, "text")`, and `text`
is the value of the `text` attribute when it is present. -/
structure Shape where
  hasText : Bool
  text : PyStr
deriving DecidableEq, Repr

/-- A slide: an ordered list of shapes. -/
structure Slide where
  shapes : List Shape
deriving DecidableEq, Repr

/-- A parsed slide-deck document: an ordered list of slides. -/
structure Pres where
  slides : List Slide
deriving DecidableEq, Repr

/-- `extract_text_from_slide(slide)`: start from the empty string, append
`shape.text + " "` for every shape that has a `text` attribute, then strip. -/
def extract_text_from_slide (slide : Slide) : PyStr :=
  pyStrip (slide.shapes.foldl
    (fun acc sh => if sh.hasText then acc ++ sh.text ++ [' '] else acc) [])

/-- The list comprehension in `process_presentation`:
`[extract_text_from_slide(slide) for slide in ppt.slides if extract_text_from_slide(slide)]`
— keep the extracted text of each slide for which it is truthy (non-empty). -/
def all_texts (ppt : Pres) : List PyStr :=
  (ppt.slides.map extract_text_from_slide).filter fun t => !t.isEmpty

/-- The `for i, text in enumerate(all_texts)` loop of `process_presentation`:
when `text` is truthy, request an explanation, append the result, then sleep
60 s if `(i + 1) % 3 == 0` and 20 s otherwise (also after the last slide —
the loop body has no special case for the end of the list).  `api i` is the
collaborator's behaviour for the calls made on behalf of slide index `i`.
Returns the event trace and the `explanations` list. -/
def processLoop (api : Nat → Nat → ApiOutcome) :
    List PyStr → Nat → List Event × List PyStr
  | [], _ => ([], [])
  | text :: rest, i =>
    if text.isEmpty then
      processLoop api rest (i + 1)
    else
      let er := get_explanation (api i) text
      let pacing := if (i + 1) % 3 = 0 then Event.sleep 60 else Event.sleep 20
      let r := processLoop api rest (i + 1)
      (er.events ++ pacing :: r.1, er.result :: r.2)

/-- `process_presentation(file_path)` after the document has been parsed:
extract the texts of all non-empty slides, then run the explanation loop.
Returns the event trace and the `explanations` list. -/
def process_presentation (api : Nat → Nat → ApiOutcome) (ppt : Pres) :
    List Event × List PyStr :=
  processLoop api (all_texts ppt) 0

theorem isEmpty_false_of_ne (t : PyStr) (h : t ≠ []) : t.isEmpty = false := by
  cases t with
  | nil => exact absurd rfl h
  | cons c ts => rfl

theorem processLoop_cons_empty (api : Nat → Nat → ApiOutcome) (t : PyStr)
    (rest : List PyStr) (i : Nat) (h : t.isEmpty = true) :
    processLoop api (t :: rest) i = processLoop api rest (i + 1) := by
  rw [processLoop]
  simp [h]

theorem processLoop_cons_ne (api : Nat → Nat → ApiOutcome) (t : PyStr)
    (rest : List PyStr) (i : Nat) (h : t.isEmpty = false) :
    processLoop api (t :: rest) i =
      ((get_explanation (api i) t).events ++
          (if (i + 1) % 3 = 0 then Event.sleep 60 else Event.sleep 20) ::
            (processLoop api rest (i + 1)).1,
        (get_explanation (api i) t).result :: (processLoop api rest (i + 1)).2) := by
  rw [processLoop]
  simp [h]

/-- Index of the last occurrence of `c` in `l` (Python `str.rfind`),
or `none` when absent. -/
def pyRfind (l : PyStr) (c : Char) : Option Nat :=
  (l.reverse.findIdx? fun d => d == c).map fun i => l.length - 1 - i

/-- The index right after the last path separator of `p` (0 when there is
none): the start of the last path component. -/
def pySepEnd (p : PyStr) : Nat :=
  match pyRfind p '/' with
  | none => 0
  | some sepIdx => sepIdx + 1

/-- `os.path.splitext(p)`: split at the last dot of the path, provided it lies
in the last path component after at least one non-dot character (so a basename
of leading dots such as `.bashrc` is not split). -/
def pySplitext (p : PyStr) : PyStr × PyStr :=
  match pyRfind p '.' with
  | none => (p, [])
  | some dotIdx =>
    if pySepEnd p ≤ dotIdx ∧
        ((p.drop (pySepEnd p)).take (dotIdx - pySepEnd p)).any (fun c => c ≠ '.')
    then (p.take dotIdx, p.drop dotIdx)
    else (p, [])

/-- The output path computed by `save_explanations`:
`f"{os.path.splitext(file_path)[0]}.json"`. -/
def outputFile (file_path : PyStr) : PyStr :=
  (pySplitext file_path).1 ++ pys ".json"

/-- One hexadecimal digit, lowercase, as emitted by Python `json`. -/
def hexDigit (n : Nat) : Char :=
  if n < 10 then Char.ofNat (48 + n) else Char.ofNat (87 + n)

/-- Four-digit lowercase hexadecimal rendering of `n`, for `\uXXXX` escapes. -/
def hex4 (n : Nat) : PyStr :=
  [hexDigit (n / 4096 % 16), hexDigit (n / 256 % 16), hexDigit (n / 16 % 16),
    hexDigit (n % 16)]

/-- Escape one character the way Python `json.dump` (default `ensure_ascii`)
does inside a string literal. -/
def jsonEscapeChar (c : Char) : PyStr :=
  if c = '\\' then ['\\', '\\']
  else if c = '"' then ['\\', '"']
  else if c = '\n' then ['\\', 'n']
  else if c = '\t' then ['\\', 't']
  else if c = '\x0d' then ['\\', 'r']
  else if c.toNat = 8 then ['\\', 'b']
  else if c.toNat = 12 then ['\\', 'f']
  else if c.toNat < 32 || 126 < c.toNat then
    if c.toNat < 65536 then '\\' :: 'u' :: hex4 c.toNat
    else ('\\' :: 'u' :: hex4 (55296 + (c.toNat - 65536) / 1024)) ++
      ('\\' :: 'u' :: hex4 (56320 + (c.toNat - 65536) % 1024))
  else [c]

/-- Modelled from the external `json` library: `json.dump(explanations, f,
indent=4)` for a list of strings — `[]` for the empty list, otherwise one
4-space-indented quoted string per line, separated by commas. -/
def pyJsonDumps (xs : List PyStr) : PyStr :=
  match xs with
  | [] => ['[', ']']
  | _ =>
    ['[', '\n'] ++
      (List.intercalate [',', '\n']
        (xs.map fun s => pys "    " ++ '"' :: (s.flatMap jsonEscapeChar) ++ ['"'])) ++
      ['\n', ']']

/-- The filesystem, as a map from paths to file contents. -/
abbrev Fs := PyStr → Option PyStr

/-- `save_explanations(file_path, explanations)`: open the output path in mode
`'w'` (truncating any existing file) and write the JSON dump of the list. -/
def save_explanations (fs : Fs) (file_path : PyStr) (explanations : List PyStr) :
    Fs :=
  fun q => if q = outputFile file_path then some (pyJsonDumps explanations) else fs q

/-- Outcome of one invocation of the script: the process exit status, the
event trace, the final filesystem, and the log lines the claims mention
(the module-level credential error, `save_explanations`' "Saving explanations
to …" line and `main`'s final confirmation line; the purely diagnostic
`logging.info` calls inside the processing loop are not modelled). -/
structure ScriptOutcome where
  exitCode : Nat
  events : List Event
  fs : Fs
  logs : List PyStr

/-- The whole script run: at import time the `OPENAI_API_KEY` environment
variable is read, and if it is absent the process logs an error and calls
`exit(1)` before any parsing, extraction, request or write; otherwise `main`
parses the document at `file_path`, processes it, saves the explanations and
logs the output path, and the process exits 0. -/
def runScript (envKey : Option PyStr) (file_path : PyStr)
    (parseDoc : PyStr → Pres) (api : Nat → Nat → ApiOutcome) (fs0 : Fs) :
    ScriptOutcome :=
  match envKey with
  | none =>
    ⟨1, [], fs0,
      [pys "OPENAI_API_KEY is not set. Please set it in your environment variables."]⟩
  | some _ =>
    let pr := process_presentation api (parseDoc file_path)
    ⟨0, Event.parse file_path :: pr.1, save_explanations fs0 file_path pr.2,
      [pys "Saving explanations to " ++ outputFile file_path,
        pys "Explanations saved to " ++ outputFile file_path]⟩

example : pySplitext (pys "deck.pptx") = (pys "deck", pys ".pptx") := by decide

example : pySplitext (pys "a/.bashrc") = (pys "a/.bashrc", []) := by decide

example : pyJsonDumps [] = pys "[]" := by decide

example : pyJsonDumps [pys "a", pys "b"] = (String.data "[\n    \"a\",\n    \"b\"\n]") := by
  decide

theorem get_explanation_success (api : Nat → ApiOutcome) (text c : PyStr)
    (h : api 0 = ApiOutcome.success c) :
    get_explanation api text = ⟨[Event.request text], pyStrip c, 1⟩ :=
  getExplanationLoop_success api text 0 1 4 c h

/-- C2: a collaborator that raises a connection error on every call makes
`explain` perform exactly 5 attempts, sleep the backoff delays 1, 2, 4, 8, 16
seconds (doubling after each failure, capped at 60), and return the fixed
rate-limit fallback string. -/
theorem c2_retry_exhaustion (api : Nat → ApiOutcome) (msgf : Nat → PyStr)
    (text : PyStr) (h : ∀ n, api n = ApiOutcome.apiConnectionError (msgf n)) :
    get_explanation api text =
      ⟨[Event.request text, Event.sleep 1, Event.request text, Event.sleep 2,
        Event.request text, Event.sleep 4, Event.request text, Event.sleep 8,
        Event.request text, Event.sleep 16], failedRetriesMsg, 32⟩ ∧
    requestsOf (get_explanation api text).events = List.replicate 5 text ∧
    sleepsOf (get_explanation api text).events = [1, 2, 4, 8, 16] ∧
    (get_explanation api text).result = failedRetriesMsg := by
  have happi : api = fun n => ApiOutcome.apiConnectionError (msgf n) := funext h
  subst happi
  exact ⟨rfl, rfl, rfl, rfl⟩

theorem c2_retry_exhaustion_witness :
    sleepsOf (get_explanation
        (fun _ => ApiOutcome.apiConnectionError (pys "boom")) (pys "slide")).events =
      [1, 2, 4, 8, 16] ∧
    (get_explanation
        (fun _ => ApiOutcome.apiConnectionError (pys "boom")) (pys "slide")).result =
      failedRetriesMsg := by
  have h := c2_retry_exhaustion
    (fun _ => ApiOutcome.apiConnectionError (pys "boom")) (fun _ => pys "boom")
    (pys "slide") (fun _ => rfl)
  exact ⟨h.2.2.1, h.2.2.2⟩

/-- C3: whatever the collaborator does on each call, `explain` returns a
string that is either a real (trimmed) explanation or one of the two fallback
strings, and every element of the run's explanation list has that shape. -/
theorem c3_explain_total_result :
    (∀ (api : Nat → ApiOutcome) (text : PyStr),
      (∃ c, (get_explanation api text).result = pyStrip c) ∨
      (∃ m, (get_explanation api text).result = errorSlideMsg ++ m) ∨
      (get_explanation api text).result = failedRetriesMsg) ∧
    (∀ (api : Nat → Nat → ApiOutcome) (ppt : Pres) (r : PyStr),
      r ∈ (process_presentation api ppt).2 →
      (∃ c, r = pyStrip c) ∨ (∃ m, r = errorSlideMsg ++ m) ∨
      r = failedRetriesMsg) := by
  have core : ∀ (api : Nat → ApiOutcome) (text : PyStr) (fuel call delay : Nat),
      (∃ c, (getExplanationLoop api text call delay fuel).result = pyStrip c) ∨
      (∃ m, (getExplanationLoop api text call delay fuel).result = errorSlideMsg ++ m) ∨
      (getExplanationLoop api text call delay fuel).result = failedRetriesMsg := by
    intro api text fuel
    induction fuel with
    | zero => intro call delay; exact Or.inr (Or.inr rfl)
    | succ n ih =>
      intro call delay
      rcases h : api call with c | _ | m | m | m
      · exact Or.inl ⟨c, by simp [getExplanationLoop, h]⟩
      · have := ih (call + 1) delay
        simpa [getExplanationLoop, h] using this
      · have := ih (call + 1) (min (delay * 2) 60)
        simpa [getExplanationLoop, h] using this
      · have := ih (call + 1) (min (delay * 2) 60)
        simpa [getExplanationLoop, h] using this
      · exact Or.inr (Or.inl ⟨m, by simp [getExplanationLoop, h]⟩)
  have memLoop : ∀ (api : Nat → Nat → ApiOutcome) (texts : List PyStr)
      (i : Nat) (r : PyStr), r ∈ (processLoop api texts i).2 →
      ∃ j t, r = (get_explanation (api j) t).result := by
    intro api texts
    induction texts with
    | nil => intro i r hr; simp [processLoop] at hr
    | cons t rest ih =>
      intro i r hr
      by_cases ht : t.isEmpty
      · rw [processLoop_cons_empty api t rest i ht] at hr
        exact ih (i + 1) r hr
      · rw [processLoop_cons_ne api t rest i (by simpa using ht)] at hr
        rcases List.mem_cons.mp hr with h1 | h2
        · exact ⟨i, t, h1⟩
        · exact ih (i + 1) r h2
  refine ⟨fun api text => core api text 5 0 1, fun api ppt r hr => ?_⟩
  obtain ⟨j, t, rfl⟩ := memLoop api (all_texts ppt) 0 r hr
  exact core (api j) t 5 0 1

theorem c3_explain_total_result_witness :
    (∃ c, pyStrip (pys "ok") = pyStrip c) ∨
    (∃ m, pyStrip (pys "ok") = errorSlideMsg ++ m) ∨
    pyStrip (pys "ok") = failedRetriesMsg :=
  c3_explain_total_result.2 (fun _ _ => ApiOutcome.success (pys "ok"))
    ⟨[⟨[⟨true, pys "hello"⟩]⟩]⟩ (pyStrip (pys "ok")) (by decide)

/-- C4: a rate-limit error makes `explain` sleep exactly 60 seconds and retry
with the exponential-backoff `delay` unchanged; in particular, with rate-limit
errors on the first two calls and then a success, `explain` returns the real
trimmed explanation after two 60-second pauses, with `delay` still 1. -/
theorem c4_rate_limit_frame :
    (∀ (api : Nat → ApiOutcome) (text : PyStr) (call delay fuel : Nat),
      api call = ApiOutcome.rateLimitError →
      getExplanationLoop api text call delay (fuel + 1) =
        ⟨Event.request text :: Event.sleep 60 ::
            (getExplanationLoop api text (call + 1) delay fuel).events,
          (getExplanationLoop api text (call + 1) delay fuel).result,
          (getExplanationLoop api text (call + 1) delay fuel).finalDelay⟩) ∧
    (∀ (api : Nat → ApiOutcome) (text s : PyStr),
      api 0 = ApiOutcome.rateLimitError → api 1 = ApiOutcome.rateLimitError →
      api 2 = ApiOutcome.success s →
      get_explanation api text =
        ⟨[Event.request text, Event.sleep 60, Event.request text, Event.sleep 60,
          Event.request text], pyStrip s, 1⟩) := by
  refine ⟨getExplanationLoop_rateLimit, fun api text s h0 h1 h2 => ?_⟩
  have e2 : getExplanationLoop api text 2 1 3 = ⟨[Event.request text], pyStrip s, 1⟩ :=
    getExplanationLoop_success api text 2 1 2 s h2
  have e1 : getExplanationLoop api text 1 1 4 =
      ⟨Event.request text :: Event.sleep 60 ::
          (getExplanationLoop api text 2 1 3).events,
        (getExplanationLoop api text 2 1 3).result,
        (getExplanationLoop api text 2 1 3).finalDelay⟩ :=
    getExplanationLoop_rateLimit api text 1 1 3 h1
  have e0 : getExplanationLoop api text 0 1 5 =
      ⟨Event.request text :: Event.sleep 60 ::
          (getExplanationLoop api text 1 1 4).events,
        (getExplanationLoop api text 1 1 4).result,
        (getExplanationLoop api text 1 1 4).finalDelay⟩ :=
    getExplanationLoop_rateLimit api text 0 1 4 h0
  show getExplanationLoop api text 0 1 5 = _
  rw [e0, e1, e2]

theorem c4_rate_limit_frame_witness :
    get_explanation
        (fun n => if n < 2 then ApiOutcome.rateLimitError
          else ApiOutcome.success (pys " fine ")) (pys "slide") =
      ⟨[Event.request (pys "slide"), Event.sleep 60, Event.request (pys "slide"),
        Event.sleep 60, Event.request (pys "slide")], pys "fine", 1⟩ := by
  have h := c4_rate_limit_frame.2
    (fun n => if n < 2 then ApiOutcome.rateLimitError
      else ApiOutcome.success (pys " fine "))
    (pys "slide") (pys " fine ") rfl rfl rfl
  rw [h]
  decide

/-- C5: an exception outside the rate-limit/connection/generic-API categories
on the first call makes `explain` return at once, with a single request, no
sleeps, and a fallback string embedding the exception's description. -/
theorem c5_generic_exception (api : Nat → ApiOutcome) (text m : PyStr)
    (h : api 0 = ApiOutcome.otherError m) :
    get_explanation api text = ⟨[Event.request text], errorSlideMsg ++ m, 1⟩ ∧
    requestsOf (get_explanation api text).events = [text] ∧
    sleepsOf (get_explanation api text).events = [] := by
  have e : get_explanation api text = ⟨[Event.request text], errorSlideMsg ++ m, 1⟩ :=
    getExplanationLoop_otherError api text 0 1 4 m h
  rw [e]
  exact ⟨rfl, rfl, rfl⟩

theorem c5_generic_exception_witness :
    get_explanation (fun _ => ApiOutcome.otherError (pys "KeyError")) (pys "slide") =
      ⟨[Event.request (pys "slide")], errorSlideMsg ++ pys "KeyError", 1⟩ :=
  (c5_generic_exception (fun _ => ApiOutcome.otherError (pys "KeyError"))
    (pys "slide") (pys "KeyError") rfl).1

/-- The texts of the shapes of a slide that expose a `text` attribute,
in shape order (the spec's view of the extractor's input for one slide). -/
def shapesTexts (shapes : List Shape) : List PyStr :=
  shapes.filterMap fun sh => if sh.hasText then some sh.text else none

theorem shapesTexts_cons_pos (sh : Shape) (rest : List Shape)
    (h : sh.hasText = true) :
    shapesTexts (sh :: rest) = sh.text :: shapesTexts rest := by
  simp [shapesTexts, List.filterMap_cons, h]

theorem shapesTexts_cons_neg (sh : Shape) (rest : List Shape)
    (h : sh.hasText = false) :
    shapesTexts (sh :: rest) = shapesTexts rest := by
  simp [shapesTexts, List.filterMap_cons, h]

theorem extract_foldl (shapes : List Shape) (a : PyStr) :
    shapes.foldl (fun acc sh => if sh.hasText then acc ++ sh.text ++ [' '] else acc) a =
      a ++ ((shapesTexts shapes).map fun t => t ++ [' ']).flatten := by
  induction shapes generalizing a with
  | nil => simp [shapesTexts]
  | cons sh rest ih =>
    by_cases h : sh.hasText
    · rw [shapesTexts_cons_pos sh rest h, List.foldl_cons, ih]
      simp [h, List.append_assoc]
    · rw [shapesTexts_cons_neg sh rest (by simpa using h), List.foldl_cons, ih]
      simp [h]

theorem intercalate_space_cons_cons (x y : PyStr) (tl : List PyStr) :
    List.intercalate [' '] (x :: y :: tl) =
      x ++ [' '] ++ List.intercalate [' '] (y :: tl) := by
  rw [List.intercalate, List.intercalate, List.intersperse_cons_cons]
  simp [List.append_assoc]

theorem flatten_map_space (ts : List PyStr) (h : ts ≠ []) :
    (ts.map fun t => t ++ [' ']).flatten = List.intercalate [' '] ts ++ [' '] := by
  induction ts with
  | nil => exact absurd rfl h
  | cons x rest ih =>
    cases rest with
    | nil => simp [List.intercalate]
    | cons y tl =>
      rw [List.map_cons, List.flatten_cons, ih (by simp), intercalate_space_cons_cons]
      simp [List.append_assoc]

theorem pyStrip_append_space (l : PyStr) : pyStrip (l ++ [' ']) = pyStrip l := by
  unfold pyStrip
  rw [List.dropWhile_append]
  by_cases h : (l.dropWhile isPySpace).isEmpty
  · rw [if_pos h]
    rw [List.isEmpty_iff.mp h]
    simp [List.dropWhile, isPySpace]
  · rw [if_neg h, List.reverse_append]
    simp [List.dropWhile, isPySpace]

theorem extract_eq_intercalate (s : Slide) :
    extract_text_from_slide s =
      pyStrip (List.intercalate [' '] (shapesTexts s.shapes)) := by
  unfold extract_text_from_slide
  rw [extract_foldl s.shapes []]
  rw [List.nil_append]
  cases hts : shapesTexts s.shapes with
  | nil => simp [List.intercalate]
  | cons x rest =>
    rw [flatten_map_space (x :: rest) (by simp), pyStrip_append_space]

theorem all_texts_members_ne (ppt : Pres) (t : PyStr) (h : t ∈ all_texts ppt) :
    t ≠ [] := by
  have := (List.mem_filter.mp h).2
  simpa [List.isEmpty_iff] using this

/-- C6: per slide, the extractor yields the trimmed space-separated
concatenation of the texts of the shapes exposing a `text` attribute; the
output sequence consists of exactly these strings for the slides where the
result is non-empty, in document order, with empty ones omitted rather than
kept as placeholders. -/
theorem c6_extractor :
    (∀ ppt : Pres,
      all_texts ppt =
        (ppt.slides.filter fun s => !(extract_text_from_slide s).isEmpty).map
          extract_text_from_slide) ∧
    (∀ s : Slide,
      extract_text_from_slide s =
        pyStrip (List.intercalate [' '] (shapesTexts s.shapes))) ∧
    (∀ (ppt : Pres) (t : PyStr), t ∈ all_texts ppt → t ≠ []) := by
  refine ⟨fun ppt => ?_, extract_eq_intercalate, all_texts_members_ne⟩
  rw [all_texts, List.filter_map]
  rfl

theorem c6_extractor_witness :
    pys "a b" ∈ all_texts ⟨[⟨[⟨true, pys "a"⟩, ⟨false, pys "zz"⟩, ⟨true, pys "b"⟩]⟩]⟩ ∧
    pys "a b" ≠ [] :=
  ⟨by decide,
    c6_extractor.2.2 ⟨[⟨[⟨true, pys "a"⟩, ⟨false, pys "zz"⟩, ⟨true, pys "b"⟩]⟩]⟩
      (pys "a b") (by decide)⟩

theorem processLoop_explanations (api : Nat → Nat → ApiOutcome)
    (texts : List PyStr) : ∀ i : Nat, (∀ t ∈ texts, t ≠ []) →
    (processLoop api texts i).2 =
      (texts.enumFrom i).map fun p => (get_explanation (api p.1) p.2).result := by
  induction texts with
  | nil => intro i _; rfl
  | cons t rest ih =>
    intro i h
    rw [processLoop_cons_ne api t rest i (isEmpty_false_of_ne t (h t (by simp)))]
    rw [ih (i + 1) fun x hx => h x (by simp [hx])]
    simp [List.enumFrom_cons]

/-- C7: the run's explanation list has one entry per slide with non-empty
extracted text, in document order, and its i-th entry is the result of
`explain` on the i-th such slide's text. -/
theorem c7_run_result_invariant (api : Nat → Nat → ApiOutcome) (ppt : Pres) :
    (process_presentation api ppt).2 =
      (all_texts ppt).enum.map (fun p => (get_explanation (api p.1) p.2).result) ∧
    (process_presentation api ppt).2.length =
      (ppt.slides.filter fun s => !(extract_text_from_slide s).isEmpty).length := by
  have h1 : (process_presentation api ppt).2 =
      (all_texts ppt).enum.map fun p => (get_explanation (api p.1) p.2).result :=
    processLoop_explanations api (all_texts ppt) 0 fun t ht =>
      all_texts_members_ne ppt t ht
  refine ⟨h1, ?_⟩
  rw [h1, List.length_map, List.enum_length, all_texts, List.filter_map,
    List.length_map]
  rfl

/-- A 4-slide document with one textual shape per slide, for the pacing
scenario. -/
def doc4 : Pres :=
  ⟨[⟨[⟨true, pys "one"⟩]⟩, ⟨[⟨true, pys "two"⟩]⟩, ⟨[⟨true, pys "three"⟩]⟩,
    ⟨[⟨true, pys "four"⟩]⟩]⟩

/-- C1, counterexample: on a document with exactly 4 non-empty slides and a
collaborator that always succeeds, the run's sleep sequence is 20, 20, 60, 20
— a 20-second pause also happens after the final slide, so it is not the
claimed 20, 20, 60. -/
theorem c1_pacing_counterexample :
    sleepsOf (process_presentation (fun _ _ => ApiOutcome.success (pys "ok")) doc4).1 ≠
      [20, 20, 60] ∧
    sleepsOf (process_presentation (fun _ _ => ApiOutcome.success (pys "ok")) doc4).1 =
      [20, 20, 60, 20] := by
  decide

/-- The pacing sleeps the orchestrator performs for `n` consecutive non-empty
slides starting at 0-based index `i`: 60 seconds when `(i + 1) % 3 == 0`,
else 20 seconds, one sleep per slide. -/
def pacingSleeps (i : Nat) : Nat → List Nat
  | 0 => []
  | n + 1 => (if (i + 1) % 3 = 0 then 60 else 20) :: pacingSleeps (i + 1) n

theorem pacingSleeps_eq_map (n : Nat) : ∀ i : Nat,
    pacingSleeps i n =
      (List.range n).map fun k => if (i + k + 1) % 3 = 0 then 60 else 20 := by
  induction n with
  | zero => intro i; rfl
  | succ m ih =>
    intro i
    rw [pacingSleeps, List.range_succ_eq_map, List.map_cons, ih (i + 1),
      List.map_map]
    refine congrArg₂ _ (by norm_num) ?_
    refine List.map_congr_left fun k _ => ?_
    have harg : i + 1 + k + 1 = i + (k + 1) + 1 := by omega
    simp [Function.comp, Nat.succ_eq_add_one, harg]

theorem sleepsOf_request_cons (t : PyStr) (evs : List Event) :
    sleepsOf (Event.request t :: evs) = sleepsOf evs := by
  simp [sleepsOf]

theorem sleepsOf_sleep_cons (n : Nat) (evs : List Event) :
    sleepsOf (Event.sleep n :: evs) = n :: sleepsOf evs := by
  simp [sleepsOf]

theorem processLoop_sleeps (api : Nat → Nat → ApiOutcome) (cf : Nat → PyStr)
    (hapi : ∀ i, api i 0 = ApiOutcome.success (cf i)) (texts : List PyStr) :
    ∀ i : Nat, (∀ t ∈ texts, t ≠ []) →
    sleepsOf (processLoop api texts i).1 = pacingSleeps i texts.length := by
  induction texts with
  | nil => intro i _; rfl
  | cons t rest ih =>
    intro i h
    rw [processLoop_cons_ne api t rest i (isEmpty_false_of_ne t (h t (by simp)))]
    rw [get_explanation_success (api i) t (cf i) (hapi i)]
    rw [List.length_cons, pacingSleeps]
    have hrest := ih (i + 1) fun x hx => h x (by simp [hx])
    by_cases hc : (i + 1) % 3 = 0
    · rw [if_pos hc, if_pos hc]
      show sleepsOf (Event.request t ::
        Event.sleep 60 :: (processLoop api rest (i + 1)).1) = _
      rw [sleepsOf_request_cons, sleepsOf_sleep_cons, hrest]
    · rw [if_neg hc, if_neg hc]
      show sleepsOf (Event.request t ::
        Event.sleep 20 :: (processLoop api rest (i + 1)).1) = _
      rw [sleepsOf_request_cons, sleepsOf_sleep_cons, hrest]

/-- C1, amended: with a collaborator that succeeds on every first call, the
orchestrator pauses after every processed slide — 60 seconds after every 3rd
(1-indexed) slide and 20 seconds after every other slide, including the final
one; for a 4-slide document the sleep sequence is 20, 20, 60, 20. -/
theorem c1_pacing_amended (api : Nat → Nat → ApiOutcome) (cf : Nat → PyStr)
    (ppt : Pres) (hapi : ∀ i, api i 0 = ApiOutcome.success (cf i)) :
    sleepsOf (process_presentation api ppt).1 =
      (List.range (all_texts ppt).length).map
        fun k => if (k + 1) % 3 = 0 then 60 else 20 := by
  rw [process_presentation,
    processLoop_sleeps api cf hapi (all_texts ppt) 0 fun t ht =>
      all_texts_members_ne ppt t ht,
    pacingSleeps_eq_map]
  simp

theorem c1_pacing_amended_witness :
    sleepsOf (process_presentation (fun _ _ => ApiOutcome.success (pys "ok")) doc4).1 =
      [20, 20, 60, 20] := by
  rw [c1_pacing_amended (fun _ _ => ApiOutcome.success (pys "ok"))
    (fun _ => pys "ok") doc4 (fun _ => rfl)]
  decide

/-- C8: the run writes exactly one file, at the input path's stem with a
`.json` extension, containing the 4-space-indented JSON array of the
explanations; any prior content at that path is overwritten, no other path is
touched, running twice on the same input writes the same file, and the stem
together with the split-off extension reconstructs the input path. -/
theorem c8_output_artifact (fs : Fs) (p : PyStr) (xs : List PyStr) :
    save_explanations fs p xs (outputFile p) = some (pyJsonDumps xs) ∧
    (∀ q : PyStr, q ≠ outputFile p → save_explanations fs p xs q = fs q) ∧
    save_explanations (save_explanations fs p xs) p xs = save_explanations fs p xs ∧
    outputFile p = (pySplitext p).1 ++ pys ".json" ∧
    (pySplitext p).1 ++ (pySplitext p).2 = p := by
  refine ⟨by simp [save_explanations], fun q hq => by simp [save_explanations, hq],
    ?_, rfl, ?_⟩
  · funext q
    by_cases hq : q = outputFile p <;> simp [save_explanations, hq]
  · unfold pySplitext
    split
    · simp
    · split <;> simp [List.take_append_drop]

theorem c8_output_artifact_witness :
    save_explanations (fun _ => none) (pys "deck.pptx") [pys "a"]
        (outputFile (pys "deck.pptx")) = some (pyJsonDumps [pys "a"]) ∧
    save_explanations (fun _ => none) (pys "deck.pptx") [pys "a"] (pys "other") =
      none := by
  have h := c8_output_artifact (fun _ => none) (pys "deck.pptx") [pys "a"]
  exact ⟨h.1, (h.2.1 (pys "other") (by decide)).trans rfl⟩

/-- C9: with the credential absent from the environment, the process exits
with status 1 with an error message, performing no parsing, no requests, no
sleeps and no writes; with it present, the process exits 0 after writing the
output file and logging a confirmation line carrying the output path. -/
theorem c9_exit_behaviour (path : PyStr) (parseDoc : PyStr → Pres)
    (api : Nat → Nat → ApiOutcome) (fs0 : Fs) :
    ((runScript none path parseDoc api fs0).exitCode = 1 ∧
      (runScript none path parseDoc api fs0).events = [] ∧
      (runScript none path parseDoc api fs0).fs = fs0 ∧
      (runScript none path parseDoc api fs0).logs =
        [pys "OPENAI_API_KEY is not set. Please set it in your environment variables."]) ∧
    (∀ k : PyStr,
      (runScript (some k) path parseDoc api fs0).exitCode = 0 ∧
      (runScript (some k) path parseDoc api fs0).fs (outputFile path) =
        some (pyJsonDumps (process_presentation api (parseDoc path)).2) ∧
      pys "Explanations saved to " ++ outputFile path ∈
        (runScript (some k) path parseDoc api fs0).logs) := by
  refine ⟨⟨rfl, rfl, rfl, rfl⟩, fun k => ⟨rfl, ?_, ?_⟩⟩
  · simp [runScript, save_explanations]
  · simp [runScript]

/-- C10: when no slide has non-empty extracted text, the run issues no
requests and performs no sleeps (its event trace is empty), produces an empty
explanation list, and still writes the output file containing the empty JSON
array. -/
theorem c10_empty_document (api : Nat → Nat → ApiOutcome) (ppt : Pres)
    (fs0 : Fs) (path : PyStr)
    (h : ∀ s ∈ ppt.slides, extract_text_from_slide s = []) :
    (process_presentation api ppt).1 = [] ∧
    (process_presentation api ppt).2 = [] ∧
    save_explanations fs0 path (process_presentation api ppt).2 (outputFile path) =
      some (pys "[]") := by
  have hat : all_texts ppt = [] := by
    rw [all_texts, List.filter_eq_nil_iff]
    intro t ht
    obtain ⟨s, hs, rfl⟩ := List.mem_map.mp ht
    simp [h s hs]
  have h2 : processLoop api ([] : List PyStr) 0 = ([], []) := rfl
  rw [process_presentation, hat, h2]
  refine ⟨rfl, rfl, ?_⟩
  simp only [save_explanations, if_pos rfl]
  rfl

theorem c10_empty_document_witness :
    (process_presentation (fun _ _ => ApiOutcome.rateLimitError)
        ⟨[⟨[⟨true, pys "  "⟩, ⟨false, pys "hidden"⟩]⟩]⟩).1 = [] ∧
    (process_presentation (fun _ _ => ApiOutcome.rateLimitError)
        ⟨[⟨[⟨true, pys "  "⟩, ⟨false, pys "hidden"⟩]⟩]⟩).2 = [] ∧
    save_explanations (fun _ => none) (pys "deck.pptx")
        (process_presentation (fun _ _ => ApiOutcome.rateLimitError)
          ⟨[⟨[⟨true, pys "  "⟩, ⟨false, pys "hidden"⟩]⟩]⟩).2
        (outputFile (pys "deck.pptx")) = some (pys "[]") :=
  c10_empty_document (fun _ _ => ApiOutcome.rateLimitError)
    ⟨[⟨[⟨true, pys "  "⟩, ⟨false, pys "hidden"⟩]⟩]⟩ (fun _ => none)
    (pys "deck.pptx") (by decide)
